import Mathlib

/-!
Shallow embedding of the resilient remote-call orchestration layer of the
google-cloud-cpp client library: the credential token cache
(`AuthorizedUserCredentials` in
`google/cloud/storage/internal/authorized_user_credentials.h`), the retry and
backoff policy machinery it consumes, the MD5 hash validator
(`google/cloud/storage/internal/hash_validator.cc`), the default-credentials
dispatcher (`google/cloud/storage/oauth2/google_credentials.cc`) and the
policy-override plumbing of `TableAdmin`
(`google/cloud/bigtable/internal/table_admin.h`).

Machine integers do not overflow in any of the modelled code paths, so times
are `Int` ticks (seconds for expirations, milliseconds for backoff delays) and
counters are `Nat`.  External collaborators (libcurl, the JSON parser, OpenSSL)
are dependency-injection parameters, exactly as the C++ source injects them
through the `HttpRequestBuilderType` template parameter.
-/

namespace GoogleCloudCpp

/-- HTTP status carried by `google::cloud::storage::Status`; only the numeric
code matters to the modelled code. -/
structure Status where
  statusCode : Nat
deriving DecidableEq, Repr

/-- Modelled from the spec: `status.h` is not under `src/`.  Section 7 of the
spec classifies transient errors as network failure, 5xx and 429; those are
retried, everything else is permanent. -/
def Status.isRetryable (s : Status) : Bool :=
  s.statusCode == 429 || (500 ≤ s.statusCode && s.statusCode < 600)

/-- Modelled from the spec: the count-bounded retry policy
(`LimitedErrorCountRetryPolicy`) is declared in a header that is not under
`src/`.  Per spec section 4.2 it fails permanently after N consecutive
failures, `on_failure` advances the bound, and the non-retryable check happens
before budget accounting. -/
structure LimitedErrorCountRetryPolicy where
  maximumFailures : Nat
  failureCount : Nat
deriving DecidableEq, Repr

def LimitedErrorCountRetryPolicy.isExhausted
    (p : LimitedErrorCountRetryPolicy) : Bool :=
  decide (p.maximumFailures ≤ p.failureCount)

/-- Modelled from the spec: returns whether the caller should retry, after
advancing the budget; a non-retryable status stops immediately without
consuming budget. -/
def LimitedErrorCountRetryPolicy.onFailure (p : LimitedErrorCountRetryPolicy)
    (s : Status) : Bool × LimitedErrorCountRetryPolicy :=
  if s.isRetryable then
    let p' : LimitedErrorCountRetryPolicy :=
      { p with failureCount := p.failureCount + 1 }
    (!p'.isExhausted, p')
  else
    (false, p)

/-- Modelled from the spec: `ExponentialBackoffPolicy` is declared in
`storage/retry_policy.h`, which is not under `src/`.  Per spec section 4.1 the
delay starts at the initial value and each `on_completion` call multiplies the
previous delay by the scaling factor, capped at the maximum.  Delays are in
milliseconds; the scaling factor of interest is exactly 2.0, so it is a `Nat`
multiplier. -/
structure ExponentialBackoffPolicy where
  currentDelay : Nat
  maximumDelay : Nat
  scaling : Nat
deriving DecidableEq, Repr

/-- Modelled from the spec: returns the current delay and scales the stored
delay for the next call, clamped to the maximum. -/
def ExponentialBackoffPolicy.onCompletion (p : ExponentialBackoffPolicy) :
    Nat × ExponentialBackoffPolicy :=
  (p.currentDelay,
   { p with currentDelay := min (p.currentDelay * p.scaling) p.maximumDelay })

/-- The default backoff policy built by the `AuthorizedUserCredentials`
constructor: initial delay 10ms, maximum delay 5 minutes (300000ms), scaling
factor 2.0. -/
def defaultBackoffPolicy : ExponentialBackoffPolicy :=
  { currentDelay := 10, maximumDelay := 300000, scaling := 2 }

/-- The delay produced by the k-th `OnCompletion` call on a backoff policy
(k = 0 for the first call). -/
def backoffDelayAt (p : ExponentialBackoffPolicy) : Nat → Nat
  | 0 => (p.onCompletion).1
  | k + 1 => backoffDelayAt (p.onCompletion).2 k

/-- The JSON body returned by the OAuth refresh endpoint, as seen through the
external `nl::json` accessors used in `Refresh`: each field access can fail
(the C++ accessor throws), which `Option` captures. -/
structure TokenJson where
  tokenType : Option String
  accessToken : Option String
  idToken : Option String
  expiresIn : Option Int
deriving DecidableEq, Repr

/-- The response produced by `request_.MakeRequest()`:
`response.status_code` and `response.payload`. -/
structure HttpResponse where
  statusCode : Nat
  payload : String
deriving DecidableEq, Repr

/-- The shared token state of `AuthorizedUserCredentials`:
`authorization_header_` and `expiration_time_` (seconds). -/
structure TokenState where
  authorizationHeader : String
  expirationTime : Int
deriving DecidableEq, Repr

/-- Modelled from the spec: `GoogleOAuthTokenExpirationSlack()` lives in
`credential_constants.h`, which is not under `src/`.  The spec only calls it a
safety slack subtracted from the token lifetime; the modelled value is 300
seconds and no claim depends on the exact number. -/
def googleOAuthTokenExpirationSlack : Int := 300

/-- What a call to `Refresh()` communicates to `AuthorizationHeader`: the
boolean return value, or a propagating JSON-parse exception. -/
inductive RefreshReturn where
  | ret (fresh : Bool)
  | parseExn
deriving DecidableEq, Repr

/-- The observable outcome of one `Refresh()` call: its return (or escaping
exception), the token state and policy state after the call, and the number of
`request_.MakeRequest()` invocations it performed. -/
structure RefreshOutcome where
  result : RefreshReturn
  token : TokenState
  retryPolicy : LimitedErrorCountRetryPolicy
  backoffPolicy : ExponentialBackoffPolicy
  attempts : Nat
deriving DecidableEq, Repr

/-- The `while (not retry_policy_->IsExhausted())` loop of
`AuthorizedUserCredentials::Refresh`, with the retry policy instantiated at
the count-bounded variant.  `mk k` is the response to the k-th
`request_.MakeRequest()` of this call, `parseJson` the external
`nl::json::parse`, and `now` the clock.  On a 200 response the fields
`token_type`, `access_token`, `id_token` and `expires_in` are read in source
order, any of which can throw; `authorization_header_` and `expiration_time_`
are assigned only after all of them succeeded. -/
def refreshLoop (mk : Nat → HttpResponse) (parseJson : String → Option TokenJson)
    (now : Int) (st : TokenState) (k : Nat)
    (retry : LimitedErrorCountRetryPolicy) (backoff : ExponentialBackoffPolicy) :
    RefreshOutcome :=
  if hex : retry.isExhausted then
    ⟨.ret false, st, retry, backoff, k⟩
  else
    let resp := mk k
    if resp.statusCode == 200 then
      match parseJson resp.payload with
      | none => ⟨.parseExn, st, retry, backoff, k + 1⟩
      | some accessToken =>
        match accessToken.tokenType with
        | none => ⟨.parseExn, st, retry, backoff, k + 1⟩
        | some tokenType =>
          match accessToken.accessToken with
          | none => ⟨.parseExn, st, retry, backoff, k + 1⟩
          | some tokenValue =>
            match accessToken.idToken with
            | none => ⟨.parseExn, st, retry, backoff, k + 1⟩
            | some _ =>
              match accessToken.expiresIn with
              | none => ⟨.parseExn, st, retry, backoff, k + 1⟩
              | some expiresIn =>
                ⟨.ret true,
                 ⟨"Authorization: " ++ tokenType ++ " " ++ tokenValue,
                  now + expiresIn - googleOAuthTokenExpirationSlack⟩,
                 retry, backoff, k + 1⟩
    else
      match hof : retry.onFailure ⟨resp.statusCode⟩ with
      | (false, retry') => ⟨.ret false, st, retry', backoff, k + 1⟩
      | (true, retry') =>
        refreshLoop mk parseJson now st (k + 1) retry' (backoff.onCompletion).2
termination_by retry.maximumFailures - retry.failureCount
decreasing_by
  simp only [LimitedErrorCountRetryPolicy.onFailure] at hof
  split at hof
  · simp only [Prod.mk.injEq] at hof
    obtain ⟨-, rfl⟩ := hof
    simp only [LimitedErrorCountRetryPolicy.isExhausted, decide_eq_true_eq] at hex
    dsimp only
    omega
  · simp at hof

/-- The body of `AuthorizedUserCredentials::Refresh`: return `true` at once if
the cached expiration is still in the future, otherwise run the retry loop. -/
def refresh (mk : Nat → HttpResponse) (parseJson : String → Option TokenJson)
    (now : Int) (st : TokenState)
    (retry : LimitedErrorCountRetryPolicy) (backoff : ExponentialBackoffPolicy) :
    RefreshOutcome :=
  if now < st.expirationTime then ⟨.ret true, st, retry, backoff, 0⟩
  else refreshLoop mk parseJson now st 0 retry backoff

/-- The member state of one `AuthorizedUserCredentials` object that
`AuthorizationHeader` reads and writes: the token pair plus the policy members
`retry_policy_` and `backoff_policy_`, which are cloned once at construction
and shared by every later call. -/
structure CredentialsState where
  token : TokenState
  retryPolicy : LimitedErrorCountRetryPolicy
  backoffPolicy : ExponentialBackoffPolicy
deriving DecidableEq, Repr

/-- `refresh` run against the member state of a credentials object. -/
def refreshC (mk : Nat → HttpResponse) (parseJson : String → Option TokenJson)
    (now : Int) (c : CredentialsState) : RefreshOutcome :=
  refresh mk parseJson now c.token c.retryPolicy c.backoffPolicy

/-- The credentials state an outcome leaves behind. -/
def RefreshOutcome.credState (o : RefreshOutcome) : CredentialsState :=
  ⟨o.token, o.retryPolicy, o.backoffPolicy⟩

/-- How a call to `AuthorizedUserCredentials::AuthorizationHeader` can end:
it returns the header, it is still blocked inside `cv_.wait` (the wait
predicate was false and no further wakeup arrives), or the JSON-parse
exception escapes through the wait predicate. -/
inductive AuthHeaderOutcome where
  | returned (header : String) (c : CredentialsState)
  | blocked (c : CredentialsState)
  | parseExn (c : CredentialsState)
deriving DecidableEq, Repr

/-- The body of `AuthorizedUserCredentials::AuthorizationHeader`:
`cv_.wait(lk, pred)` runs the predicate `Refresh()`; while it is false the
thread sleeps on the condition variable and reruns the predicate after each
wakeup.  No code in the class ever notifies `cv_`, so wakeups can only be
spurious; `wakeups` is how many of those occur.  When the predicate is false
and no wakeup remains, the thread stays blocked. -/
def authorizationHeader (mk : Nat → HttpResponse)
    (parseJson : String → Option TokenJson) (now : Int)
    (c : CredentialsState) (wakeups : Nat) : AuthHeaderOutcome :=
  let o := refreshC mk parseJson now c
  match o.result with
  | .ret true => .returned o.token.authorizationHeader o.credState
  | .parseExn => .parseExn o.credState
  | .ret false =>
    match wakeups with
    | 0 => .blocked o.credState
    | w + 1 => authorizationHeader mk parseJson now o.credState w

/-! ### MD5HashValidator (`hash_validator.cc`) -/

/-- Does the haystack start with the pattern?  Character-level helper for the
`std::string::find` model. -/
def beginsWith : List Char → List Char → Bool
  | [], _ => true
  | _ :: _, [] => false
  | p :: ps, h :: t => p == h && beginsWith ps t

/-- Index of the first occurrence of `pat` in the haystack, starting the count
at `i`; `none` mirrors `std::string::npos`. -/
def findSubstrAux (pat : List Char) : List Char → Nat → Option Nat
  | hay, i =>
    if beginsWith pat hay then some i
    else
      match hay with
      | [] => none
      | _ :: t => findSubstrAux pat t (i + 1)

/-- Model of `value.find(pat)` on `std::string`. -/
def strFind (value pat : String) : Option Nat :=
  findSubstrAux pat.data value.data 0

/-- Model of `value.substr(pos)` on `std::string`: the suffix from `pos`. -/
def strSubstrFrom (value : String) (pos : Nat) : String :=
  String.mk (value.data.drop pos)

/-- The part of `ObjectMetadata` the validator reads: `meta.md5_hash()`. -/
structure ObjectMetadataM where
  md5Hash : String
deriving DecidableEq, Repr

/-- The mutable state of `MD5HashValidator` the claims are about: the
`received_hash_` member.  The incremental MD5 context is external (OpenSSL)
and enters only through the computed digest handed to `finish`. -/
structure MD5HashValidatorState where
  receivedHash : String
deriving DecidableEq, Repr

/-- `MD5HashValidator::ProcessMetadata`: an empty `md5_hash` in the metadata
must not replace a hash already received through headers. -/
def MD5HashValidator.processMetadata (st : MD5HashValidatorState)
    (meta : ObjectMetadataM) : MD5HashValidatorState :=
  if meta.md5Hash = "" then st
  else { st with receivedHash := meta.md5Hash }

/-- `MD5HashValidator::ProcessHeader`: only an `x-goog-hash` header whose
value contains `md5=` records a received hash, namely the suffix after that
marker. -/
def MD5HashValidator.processHeader (st : MD5HashValidatorState)
    (key value : String) : MD5HashValidatorState :=
  if key ≠ "x-goog-hash" then st
  else
    match strFind value "md5=" with
    | none => st
    | some pos => { st with receivedHash := strSubstrFrom value (pos + 4) }

/-- The `HashValidator::Result` pair returned by `Finish`. -/
structure HashValidatorResult where
  received : String
  computed : String
deriving DecidableEq, Repr

/-- How `MD5HashValidator::Finish` ends: a thrown `HashMismatchError` carrying
the message, received and computed hashes, or the normal `Result`. -/
inductive FinishOutcome where
  | mismatchError (msg received computed : String)
  | ok (r : HashValidatorResult)
deriving DecidableEq, Repr

/-- `MD5HashValidator::Finish` (exceptions-enabled build): `computed` is the
base64 digest produced by the external OpenSSL calls; a mismatch error is
raised only when a hash was actually received and differs from it. -/
def MD5HashValidator.finish (st : MD5HashValidatorState)
    (computed : String) (msg : String) : FinishOutcome :=
  if st.receivedHash ≠ "" ∧ st.receivedHash ≠ computed then
    .mismatchError msg st.receivedHash computed
  else
    .ok ⟨st.receivedHash, computed⟩

/-! ### GoogleDefaultCredentials (`google_credentials.cc`) -/

/-- The credentials JSON as read through `cred_json.value("type", ...)`: only
the optional `type` field matters to the dispatcher. -/
structure CredJson where
  typeField : Option String
deriving DecidableEq, Repr

/-- The kinds of credentials object the file can construct.  `anonymous` is
produced only by `CreateAnonymousCredentials`, never by the default
dispatcher. -/
inductive CredKind where
  | authorizedUser
  | serviceAccount
  | anonymous
deriving DecidableEq, Repr

/-- The environment `GoogleDefaultCredentials` probes: the ADC path from
`GoogleAdcFilePathOrEmpty()`, whether the `ifstream` opens, and the file
contents. -/
structure AdcEnvironment where
  adcFilePath : String
  fileOpens : Bool
  fileContents : String

/-- `GoogleDefaultCredentials`: every non-matching path calls
`RaiseRuntimeError`, modelled as `Except.error` with the message; the function
never returns a null or anonymous credentials object.  `parseJson` is the
external `nl::json::parse` in non-throwing mode (`none` mirrors
`is_discarded()`). -/
def googleDefaultCredentials (env : AdcEnvironment)
    (parseJson : String → Option CredJson) : Except String CredKind :=
  if env.adcFilePath ≠ "" then
    if !env.fileOpens then
      .error ("Cannot open credentials file " ++ env.adcFilePath)
    else
      match parseJson env.fileContents with
      | none => .error ("Invalid contents in credentials file " ++ env.adcFilePath)
      | some credJson =>
        let credType := credJson.typeField.getD "no type given"
        if credType = "authorized_user" then .ok .authorizedUser
        else if credType = "service_account" then .ok .serviceAccount
        else
          .error ("Unsupported credential type (" ++ credType ++
            ") when reading Application Default Credentials file from " ++
            env.adcFilePath ++ ".")
  else
    .error "No eligible credential types were found to use as default credentials."

/-! ### TableAdmin policy plumbing (`table_admin.h`) -/

/-- Modelled from the spec: `RPCRetryPolicy` lives in
`bigtable/rpc_retry_policy.h`, which is not under `src/`.  Only its identity
and numeric configuration matter to the override plumbing. -/
structure RPCRetryPolicyV where
  limitMilliseconds : Nat
deriving DecidableEq, Repr

/-- Modelled from the spec: `RPCBackoffPolicy` lives in
`bigtable/rpc_backoff_policy.h`, which is not under `src/`. -/
structure RPCBackoffPolicyV where
  initialDelayMilliseconds : Nat
deriving DecidableEq, Repr

/-- Modelled from the spec: `PollingPolicy` lives in
`bigtable/polling_policy.h`, which is not under `src/`. -/
structure PollingPolicyV where
  maximumPollMilliseconds : Nat
deriving DecidableEq, Repr

/-- The policy members of `noex::TableAdmin`. -/
structure TableAdminState where
  rpcRetryPolicy : RPCRetryPolicyV
  rpcBackoffPolicy : RPCBackoffPolicyV
  pollingPolicy : PollingPolicyV
deriving DecidableEq, Repr

/-- One policy override argument; the C++ `ChangePolicy` overloads dispatch on
the static type of the argument, which the constructor tag captures. -/
inductive TableAdminPolicyOverride where
  | retry (p : RPCRetryPolicyV)
  | backoff (p : RPCBackoffPolicyV)
  | polling (p : PollingPolicyV)
deriving DecidableEq, Repr

/-- The three `TableAdmin::ChangePolicy` overloads: each replaces exactly the
member of its own category with a clone of the argument. -/
def changePolicy (a : TableAdminState) :
    TableAdminPolicyOverride → TableAdminState
  | .retry p => { a with rpcRetryPolicy := p }
  | .backoff p => { a with rpcBackoffPolicy := p }
  | .polling p => { a with pollingPolicy := p }

/-- `TableAdmin::ChangePolicies`: apply the head override, then recurse on the
tail, so a later override of the same category overwrites an earlier one. -/
def changePolicies (a : TableAdminState) :
    List TableAdminPolicyOverride → TableAdminState
  | [] => a
  | p :: ps => changePolicies (changePolicy a p) ps

/-- The last retry override in an argument list, if any. -/
def lastRetryOverride : List TableAdminPolicyOverride → Option RPCRetryPolicyV
  | [] => none
  | .retry p :: ps => some ((lastRetryOverride ps).getD p)
  | _ :: ps => lastRetryOverride ps

/-- The last backoff override in an argument list, if any. -/
def lastBackoffOverride : List TableAdminPolicyOverride → Option RPCBackoffPolicyV
  | [] => none
  | .backoff p :: ps => some ((lastBackoffOverride ps).getD p)
  | _ :: ps => lastBackoffOverride ps

/-- The last polling override in an argument list, if any. -/
def lastPollingOverride : List TableAdminPolicyOverride → Option PollingPolicyV
  | [] => none
  | .polling p :: ps => some ((lastPollingOverride ps).getD p)
  | _ :: ps => lastPollingOverride ps

/-- The policy state handed to the `AsyncRetryUnaryRpc` operation built by
`TableAdmin::AsyncGetTable`: clones of the stored retry and backoff policies
plus the constant idempotency flag. -/
structure AsyncRetryState where
  retryPolicy : RPCRetryPolicyV
  backoffPolicy : RPCBackoffPolicyV
  idempotent : Bool
deriving DecidableEq, Repr

/-- `TableAdmin::AsyncGetTable` policy handling: the retry operation receives
`rpc_retry_policy_->clone()` and `rpc_backoff_policy_->clone()` (independent
copies) and `ConstantIdempotencyPolicy(true)`; the members of the admin object
are not modified. -/
def asyncGetTable (a : TableAdminState) : AsyncRetryState × TableAdminState :=
  (⟨a.rpcRetryPolicy, a.rpcBackoffPolicy, true⟩, a)

/-! ### AuthorizedUserCredentials policy plumbing -/

/-- The storage retry-policy variants named by the spec; the credentials
constructor defaults to the time-bounded one with a 15 minute budget, and
`ApplyPolicies` may replace it with either variant. -/
inductive StorageRetryPolicyV where
  | limitedTime (maximumDurationSeconds : Int)
  | limitedCount (p : LimitedErrorCountRetryPolicy)
deriving DecidableEq, Repr

/-- The policy members set by the `AuthorizedUserCredentials` constructor and
`ApplyPolicies`. -/
structure StoragePolicyConfig where
  retryPolicy : StorageRetryPolicyV
  backoffPolicy : ExponentialBackoffPolicy
deriving DecidableEq, Repr

/-- The defaults installed by the `AuthorizedUserCredentials` constructor:
`LimitedTimeRetryPolicy(15 minutes)` and
`ExponentialBackoffPolicy(10ms, 5 minutes, 2.0)`. -/
def defaultStoragePolicyConfig : StoragePolicyConfig :=
  ⟨.limitedTime 900, defaultBackoffPolicy⟩

/-- One policy override argument to the credentials constructor. -/
inductive StoragePolicyOverride where
  | retry (p : StorageRetryPolicyV)
  | backoff (p : ExponentialBackoffPolicy)
deriving DecidableEq, Repr

/-- The two `AuthorizedUserCredentials::Apply` overloads: each stores a clone
of its argument in the member of its own category. -/
def applyPolicy (c : StoragePolicyConfig) :
    StoragePolicyOverride → StoragePolicyConfig
  | .retry p => { c with retryPolicy := p }
  | .backoff p => { c with backoffPolicy := p }

/-- `AuthorizedUserCredentials::ApplyPolicies`: apply the head, recurse on the
tail. -/
def applyPolicies (c : StoragePolicyConfig) :
    List StoragePolicyOverride → StoragePolicyConfig
  | [] => c
  | p :: ps => applyPolicies (applyPolicy c p) ps

/-- The last retry override in a credentials argument list, if any. -/
def lastStorageRetryOverride :
    List StoragePolicyOverride → Option StorageRetryPolicyV
  | [] => none
  | .retry p :: ps => some ((lastStorageRetryOverride ps).getD p)
  | _ :: ps => lastStorageRetryOverride ps

/-- The last backoff override in a credentials argument list, if any. -/
def lastStorageBackoffOverride :
    List StoragePolicyOverride → Option ExponentialBackoffPolicy
  | [] => none
  | .backoff p :: ps => some ((lastStorageBackoffOverride ps).getD p)
  | _ :: ps => lastStorageBackoffOverride ps

/-! ### Concrete scenarios -/

/-- A transport whose every response is HTTP 503 (service unavailable), a
transient error. -/
def allServerError : Nat → HttpResponse := fun _ => ⟨503, ""⟩

/-- A JSON parser that rejects everything; it is never consulted in runs
where no response is a 200. -/
def noTokenParse : String → Option TokenJson := fun _ => none

/-- A credentials object with an unpopulated (stale) token and a
count-limit-1 retry policy installed through `ApplyPolicies`. -/
def staleCreds : CredentialsState := ⟨⟨"", 0⟩, ⟨1, 0⟩, defaultBackoffPolicy⟩

/-- The member state `staleCreds` is left in once its single refresh attempt
has failed: the shared retry policy is exhausted, the token still stale. -/
def exhaustedCreds : CredentialsState := ⟨⟨"", 0⟩, ⟨1, 1⟩, defaultBackoffPolicy⟩

/-! ## Helper lemmas -/

theorem backoffDelayAt_mono_and_capped (p : ExponentialBackoffPolicy)
    (hle : p.currentDelay ≤ p.maximumDelay) (hs : 1 ≤ p.scaling) :
    ∀ k, backoffDelayAt p k ≤ backoffDelayAt p (k + 1) ∧
      backoffDelayAt p k ≤ p.maximumDelay := by
  intro k
  induction k generalizing p with
  | zero =>
    have hmul : p.currentDelay ≤ p.currentDelay * p.scaling := by
      calc p.currentDelay = p.currentDelay * 1 := by ring
        _ ≤ p.currentDelay * p.scaling := Nat.mul_le_mul_left _ hs
    refine ⟨?_, hle⟩
    show p.currentDelay ≤ min (p.currentDelay * p.scaling) p.maximumDelay
    exact le_min hmul hle
  | succ k ih =>
    have hle' : (p.onCompletion).2.currentDelay ≤ (p.onCompletion).2.maximumDelay :=
      min_le_right _ _
    have hs' : 1 ≤ (p.onCompletion).2.scaling := hs
    have := ih (p.onCompletion).2 hle' hs'
    exact ⟨this.1, this.2⟩

theorem changePolicies_retry (ps : List TableAdminPolicyOverride) :
    ∀ a : TableAdminState, (changePolicies a ps).rpcRetryPolicy =
      (lastRetryOverride ps).getD a.rpcRetryPolicy := by
  induction ps with
  | nil => intro a; rfl
  | cons p ps ih =>
    intro a
    cases p with
    | retry q => simp [changePolicies, changePolicy, lastRetryOverride, ih]
    | backoff q => simp [changePolicies, changePolicy, lastRetryOverride, ih]
    | polling q => simp [changePolicies, changePolicy, lastRetryOverride, ih]

theorem changePolicies_backoff (ps : List TableAdminPolicyOverride) :
    ∀ a : TableAdminState, (changePolicies a ps).rpcBackoffPolicy =
      (lastBackoffOverride ps).getD a.rpcBackoffPolicy := by
  induction ps with
  | nil => intro a; rfl
  | cons p ps ih =>
    intro a
    cases p with
    | retry q => simp [changePolicies, changePolicy, lastBackoffOverride, ih]
    | backoff q => simp [changePolicies, changePolicy, lastBackoffOverride, ih]
    | polling q => simp [changePolicies, changePolicy, lastBackoffOverride, ih]

theorem changePolicies_polling (ps : List TableAdminPolicyOverride) :
    ∀ a : TableAdminState, (changePolicies a ps).pollingPolicy =
      (lastPollingOverride ps).getD a.pollingPolicy := by
  induction ps with
  | nil => intro a; rfl
  | cons p ps ih =>
    intro a
    cases p with
    | retry q => simp [changePolicies, changePolicy, lastPollingOverride, ih]
    | backoff q => simp [changePolicies, changePolicy, lastPollingOverride, ih]
    | polling q => simp [changePolicies, changePolicy, lastPollingOverride, ih]

theorem applyPolicies_retry (qs : List StoragePolicyOverride) :
    ∀ c : StoragePolicyConfig, (applyPolicies c qs).retryPolicy =
      (lastStorageRetryOverride qs).getD c.retryPolicy := by
  induction qs with
  | nil => intro c; rfl
  | cons q qs ih =>
    intro c
    cases q with
    | retry p => simp [applyPolicies, applyPolicy, lastStorageRetryOverride, ih]
    | backoff p => simp [applyPolicies, applyPolicy, lastStorageRetryOverride, ih]

theorem applyPolicies_backoff (qs : List StoragePolicyOverride) :
    ∀ c : StoragePolicyConfig, (applyPolicies c qs).backoffPolicy =
      (lastStorageBackoffOverride qs).getD c.backoffPolicy := by
  induction qs with
  | nil => intro c; rfl
  | cons q qs ih =>
    intro c
    cases q with
    | retry p => simp [applyPolicies, applyPolicy, lastStorageBackoffOverride, ih]
    | backoff p => simp [applyPolicies, applyPolicy, lastStorageBackoffOverride, ih]

theorem refreshLoop_token_frame (mk : Nat → HttpResponse)
    (parseJson : String → Option TokenJson) (now : Int) (st : TokenState) :
    ∀ (n : Nat) (retry : LimitedErrorCountRetryPolicy)
      (backoff : ExponentialBackoffPolicy) (k : Nat),
      retry.maximumFailures - retry.failureCount = n →
      ((refreshLoop mk parseJson now st k retry backoff).result = .parseExn →
        (refreshLoop mk parseJson now st k retry backoff).token = st) ∧
      ((refreshLoop mk parseJson now st k retry backoff).token = st ∨
        ∃ tokenType tokenValue expiresIn,
          (refreshLoop mk parseJson now st k retry backoff).token =
            ⟨"Authorization: " ++ tokenType ++ " " ++ tokenValue,
             now + expiresIn - googleOAuthTokenExpirationSlack⟩) := by
  intro n
  induction n with
  | zero =>
    intro retry backoff k h
    have hex : retry.isExhausted = true := by
      simp only [LimitedErrorCountRetryPolicy.isExhausted, decide_eq_true_eq]
      omega
    rw [refreshLoop.eq_def]
    simp [hex]
  | succ n ih =>
    intro retry backoff k h
    have hex : retry.isExhausted = false := by
      simp only [LimitedErrorCountRetryPolicy.isExhausted, decide_eq_false_iff_not]
      omega
    rw [refreshLoop.eq_def]
    simp only [hex, Bool.false_eq_true, dite_false]
    split
    · split
      · simp
      · split
        · simp
        · split
          · simp
          · split
            · simp
            · split
              · simp
              · exact ⟨fun hc => RefreshReturn.noConfusion hc,
                  Or.inr ⟨_, _, _, rfl⟩⟩
    · split
      · simp
      · next retry' heq =>
        have hcount : retry'.maximumFailures = retry.maximumFailures ∧
            retry'.failureCount = retry.failureCount + 1 := by
          simp only [LimitedErrorCountRetryPolicy.onFailure] at heq
          split at heq
          · simp only [Prod.mk.injEq] at heq
            obtain ⟨-, rfl⟩ := heq
            exact ⟨rfl, rfl⟩
          · simp at heq
        have hex' : ¬ retry.maximumFailures ≤ retry.failureCount := by
          simpa [LimitedErrorCountRetryPolicy.isExhausted] using hex
        obtain ⟨hm, hc⟩ := hcount
        exact ih retry' (backoff.onCompletion).2 (k + 1) (by omega)

theorem refreshLoop_all_transient (mk : Nat → HttpResponse)
    (parseJson : String → Option TokenJson) (now : Int) (st : TokenState)
    (hfail : ∀ j, (mk j).statusCode ≠ 200 ∧
      Status.isRetryable ⟨(mk j).statusCode⟩ = true) :
    ∀ (n : Nat) (retry : LimitedErrorCountRetryPolicy)
      (backoff : ExponentialBackoffPolicy) (k : Nat),
      retry.failureCount ≤ retry.maximumFailures →
      retry.maximumFailures - retry.failureCount = n →
      (refreshLoop mk parseJson now st k retry backoff).result = .ret false ∧
      (refreshLoop mk parseJson now st k retry backoff).token = st ∧
      (refreshLoop mk parseJson now st k retry backoff).retryPolicy =
        ⟨retry.maximumFailures, retry.maximumFailures⟩ ∧
      (refreshLoop mk parseJson now st k retry backoff).attempts = k + n := by
  intro n
  induction n with
  | zero =>
    intro retry backoff k hinv h
    have hex : retry.isExhausted = true := by
      simp only [LimitedErrorCountRetryPolicy.isExhausted, decide_eq_true_eq]
      omega
    have hfc : retry.failureCount = retry.maximumFailures := by omega
    have hretry : retry =
        (⟨retry.maximumFailures, retry.maximumFailures⟩ :
          LimitedErrorCountRetryPolicy) := by
      obtain ⟨mf, fc⟩ := retry
      dsimp only at hfc
      rw [hfc]
    rw [refreshLoop.eq_def, dif_pos hex]
    exact ⟨rfl, rfl, hretry, rfl⟩
  | succ n ih =>
    intro retry backoff k hinv h
    have hex : retry.isExhausted = false := by
      simp only [LimitedErrorCountRetryPolicy.isExhausted, decide_eq_false_iff_not]
      omega
    have hex' : ¬ retry.maximumFailures ≤ retry.failureCount := by
      simpa [LimitedErrorCountRetryPolicy.isExhausted] using hex
    have h200 : ((mk k).statusCode == 200) = false :=
      beq_eq_false_iff_ne.mpr (hfail k).1
    rw [refreshLoop.eq_def]
    simp only [hex, Bool.false_eq_true, dite_false, h200, if_false]
    split
    · next retry' heq =>
      simp only [LimitedErrorCountRetryPolicy.onFailure, (hfail k).2,
        if_true, Prod.mk.injEq] at heq
      obtain ⟨hb, hr⟩ := heq
      have hb' : retry.maximumFailures ≤ retry.failureCount + 1 := by
        simpa [LimitedErrorCountRetryPolicy.isExhausted] using hb
      refine ⟨rfl, rfl, ?_, ?_⟩
      · show retry' = ⟨retry.maximumFailures, retry.maximumFailures⟩
        rw [← hr]
        have : retry.failureCount + 1 = retry.maximumFailures := by omega
        rw [this]
      · show k + 1 = k + (n + 1)
        omega
    · next retry' heq =>
      simp only [LimitedErrorCountRetryPolicy.onFailure, (hfail k).2,
        if_true, Prod.mk.injEq] at heq
      obtain ⟨-, hr⟩ := heq
      have hm : retry'.maximumFailures = retry.maximumFailures := by
        rw [← hr]
      have hc : retry'.failureCount = retry.failureCount + 1 := by
        rw [← hr]
      obtain ⟨h1, h2, h3, h4⟩ :=
        ih retry' (backoff.onCompletion).2 (k + 1) (by omega) (by omega)
      refine ⟨h1, h2, ?_, ?_⟩
      · rw [h3, hm]
      · rw [h4]
        omega

/-- A refresh attempted while the member retry policy is already exhausted and
the token is stale makes no transport attempt at all and leaves every member
unchanged. -/
theorem refresh_exhausted_no_attempt (mk : Nat → HttpResponse)
    (parseJson : String → Option TokenJson) (now : Int) (st : TokenState)
    (retry : LimitedErrorCountRetryPolicy) (backoff : ExponentialBackoffPolicy)
    (hstale : ¬ now < st.expirationTime) (hex : retry.isExhausted = true) :
    refresh mk parseJson now st retry backoff =
      ⟨.ret false, st, retry, backoff, 0⟩ := by
  rw [refresh, if_neg hstale, refreshLoop.eq_def]
  simp [hex]

/-! ## Claim theorems -/

/-- C6: for the exponential backoff policy with initial delay 10ms, maximum
delay 5 minutes and scaling factor 2.0, the sequence of delays produced by
successive `OnCompletion` calls is non-decreasing, and no delay ever exceeds
the configured maximum of 300000ms. -/
theorem default_backoff_delays_monotone_and_capped :
    ∀ k, backoffDelayAt defaultBackoffPolicy k ≤
        backoffDelayAt defaultBackoffPolicy (k + 1) ∧
      backoffDelayAt defaultBackoffPolicy k ≤ defaultBackoffPolicy.maximumDelay :=
  backoffDelayAt_mono_and_capped defaultBackoffPolicy (by decide) (by decide)

/-- C7: when several policy overrides are supplied to the `TableAdmin` or
`AuthorizedUserCredentials` constructors, the configured policy of each
category is the last supplied override of that category, and a category with
no override keeps the default it started with. -/
theorem policy_overrides_last_one_wins (a : TableAdminState)
    (ps : List TableAdminPolicyOverride) (c : StoragePolicyConfig)
    (qs : List StoragePolicyOverride) :
    (changePolicies a ps).rpcRetryPolicy =
        (lastRetryOverride ps).getD a.rpcRetryPolicy ∧
      (changePolicies a ps).rpcBackoffPolicy =
        (lastBackoffOverride ps).getD a.rpcBackoffPolicy ∧
      (changePolicies a ps).pollingPolicy =
        (lastPollingOverride ps).getD a.pollingPolicy ∧
      (applyPolicies c qs).retryPolicy =
        (lastStorageRetryOverride qs).getD c.retryPolicy ∧
      (applyPolicies c qs).backoffPolicy =
        (lastStorageBackoffOverride qs).getD c.backoffPolicy :=
  ⟨changePolicies_retry ps a, changePolicies_backoff ps a,
   changePolicies_polling ps a, applyPolicies_retry qs c,
   applyPolicies_backoff qs c⟩

/-- C8: `MD5HashValidator::Finish` raises `HashMismatchError` exactly when a
received hash was recorded and differs from the computed one; with no received
hash it returns the `Result` pair without error even though the two hashes
trivially differ. -/
theorem md5_finish_mismatch_iff (st : MD5HashValidatorState)
    (computed msg : String) :
    (MD5HashValidator.finish st computed msg =
        .mismatchError msg st.receivedHash computed ↔
      st.receivedHash ≠ "" ∧ st.receivedHash ≠ computed) ∧
    (st.receivedHash = "" → computed ≠ "" →
      MD5HashValidator.finish st computed msg = .ok ⟨st.receivedHash, computed⟩ ∧
        st.receivedHash ≠ computed) := by
  constructor
  · constructor
    · intro h
      by_contra hc
      rw [MD5HashValidator.finish, if_neg hc] at h
      exact FinishOutcome.noConfusion h
    · intro h
      rw [MD5HashValidator.finish, if_pos h]
  · intro hempty hcomp
    have hne : st.receivedHash ≠ computed := by
      rw [hempty]; exact fun h => hcomp h.symm
    refine ⟨?_, hne⟩
    rw [MD5HashValidator.finish, if_neg ?_]
    intro h
    exact h.1 hempty

/-- C8 witness: with no received hash and a non-empty computed digest, Finish
returns the pair without raising, and the two hashes differ. -/
theorem md5_finish_mismatch_iff_witness :
    MD5HashValidator.finish ⟨""⟩ "kF8Mv4Hc1EyLc1k=" "object" =
        .ok ⟨"", "kF8Mv4Hc1EyLc1k="⟩ ∧
      ("" : String) ≠ "kF8Mv4Hc1EyLc1k=" :=
  (md5_finish_mismatch_iff ⟨""⟩ "kF8Mv4Hc1EyLc1k=" "object").2 rfl (by decide)

/-- C10: `received_hash_` is never overwritten with an empty or irrelevant
value: `ProcessMetadata` with an empty `md5_hash` and `ProcessHeader` with a
key other than `x-goog-hash`, or a value not containing `md5=`, leave the
state unchanged, and any change implies a genuine md5 value was present in
the input. -/
theorem md5_received_hash_frame (st : MD5HashValidatorState)
    (meta : ObjectMetadataM) (key value : String) :
    (meta.md5Hash = "" → MD5HashValidator.processMetadata st meta = st) ∧
    (key ≠ "x-goog-hash" → MD5HashValidator.processHeader st key value = st) ∧
    (strFind value "md5=" = none →
      MD5HashValidator.processHeader st key value = st) ∧
    (MD5HashValidator.processMetadata st meta ≠ st → meta.md5Hash ≠ "") ∧
    (MD5HashValidator.processHeader st key value ≠ st →
      key = "x-goog-hash" ∧ ∃ pos, strFind value "md5=" = some pos) := by
  refine ⟨?_, ?_, ?_, ?_, ?_⟩
  · intro h
    rw [MD5HashValidator.processMetadata, if_pos h]
  · intro h
    rw [MD5HashValidator.processHeader, if_pos h]
  · intro h
    rw [MD5HashValidator.processHeader]
    split
    · rfl
    · rw [h]
  · intro h hc
    exact h (by rw [MD5HashValidator.processMetadata, if_pos hc])
  · intro h
    rw [MD5HashValidator.processHeader] at h
    split at h
    · exact absurd rfl h
    · next hkey =>
      rw [not_not] at hkey
      refine ⟨hkey, ?_⟩
      rcases hfind : strFind value "md5=" with _ | pos
      · rw [hfind] at h
        exact absurd rfl h
      · exact ⟨pos, rfl⟩

/-- C10 witness: an already-recorded hash survives empty metadata, a foreign
header, and an `x-goog-hash` header carrying only a crc32c value. -/
theorem md5_received_hash_frame_witness :
    MD5HashValidator.processMetadata ⟨"zzz="⟩ ⟨""⟩ = ⟨"zzz="⟩ ∧
    MD5HashValidator.processHeader ⟨"zzz="⟩ "content-type" "md5=abc" = ⟨"zzz="⟩ ∧
    MD5HashValidator.processHeader ⟨"zzz="⟩ "x-goog-hash" "crc32c=4gcgLQ==" =
      ⟨"zzz="⟩ :=
  ⟨(md5_received_hash_frame ⟨"zzz="⟩ ⟨""⟩ "k" "v").1 rfl,
   (md5_received_hash_frame ⟨"zzz="⟩ ⟨""⟩ "content-type" "md5=abc").2.1
     (by decide),
   (md5_received_hash_frame ⟨"zzz="⟩ ⟨""⟩ "x-goog-hash" "crc32c=4gcgLQ==").2.2.1
     (by decide)⟩

/-- C9: for a readable credentials file with well-formed JSON,
`GoogleDefaultCredentials` returns an authorized-user credentials object when
the `type` field is `authorized_user`, a service-account one when it is
`service_account`, and raises a runtime error for any other or missing `type`;
it never returns a null or default (anonymous) credentials object. -/
theorem google_default_credentials_dispatch (env : AdcEnvironment)
    (parseJson : String → Option CredJson) (j : CredJson)
    (hpath : env.adcFilePath ≠ "") (hopen : env.fileOpens = true)
    (hparse : parseJson env.fileContents = some j) :
    (j.typeField = some "authorized_user" →
      googleDefaultCredentials env parseJson = .ok .authorizedUser) ∧
    (j.typeField = some "service_account" →
      googleDefaultCredentials env parseJson = .ok .serviceAccount) ∧
    (j.typeField ≠ some "authorized_user" →
      j.typeField ≠ some "service_account" →
      ∃ msg, googleDefaultCredentials env parseJson = .error msg) ∧
    googleDefaultCredentials env parseJson ≠ .ok .anonymous := by
  have hres : googleDefaultCredentials env parseJson =
      (let credType := j.typeField.getD "no type given"
       if credType = "authorized_user" then .ok .authorizedUser
       else if credType = "service_account" then .ok .serviceAccount
       else
         .error ("Unsupported credential type (" ++ credType ++
           ") when reading Application Default Credentials file from " ++
           env.adcFilePath ++ ".")) := by
    rw [googleDefaultCredentials, if_pos hpath, hopen]
    simp [hparse]
  refine ⟨?_, ?_, ?_, ?_⟩
  · intro h
    rw [hres]
    simp [h]
  · intro h
    rw [hres, h]
    simp
  · intro hA hS
    rcases htf : j.typeField with _ | t
    · have : googleDefaultCredentials env parseJson = .error
          ("Unsupported credential type (" ++ "no type given" ++
            ") when reading Application Default Credentials file from " ++
            env.adcFilePath ++ ".") := by
        rw [hres, htf]
        simp
      exact ⟨_, this⟩
    · have hA' : t ≠ "authorized_user" := fun hc => hA (htf.trans (by rw [hc]))
      have hS' : t ≠ "service_account" := fun hc => hS (htf.trans (by rw [hc]))
      have : googleDefaultCredentials env parseJson = .error
          ("Unsupported credential type (" ++ t ++
            ") when reading Application Default Credentials file from " ++
            env.adcFilePath ++ ".") := by
        rw [hres, htf]
        simp [hA', hS']
      exact ⟨_, this⟩
  · rw [hres]
    rcases j.typeField with _ | t
    · simp
    · simp only [Option.getD_some]
      split
      · simp
      · split
        · simp
        · simp

/-- C9 witness: the three dispatch branches at concrete environments. -/
theorem google_default_credentials_dispatch_witness :
    googleDefaultCredentials ⟨"/adc.json", true, "au"⟩
        (fun _ => some ⟨some "authorized_user"⟩) = .ok .authorizedUser ∧
    googleDefaultCredentials ⟨"/adc.json", true, "sa"⟩
        (fun _ => some ⟨some "service_account"⟩) = .ok .serviceAccount ∧
    ∃ msg, googleDefaultCredentials ⟨"/adc.json", true, "x"⟩
        (fun _ => some ⟨none⟩) = .error msg :=
  ⟨(google_default_credentials_dispatch ⟨"/adc.json", true, "au"⟩
      (fun _ => some ⟨some "authorized_user"⟩) ⟨some "authorized_user"⟩
      (by decide) rfl rfl).1 rfl,
   (google_default_credentials_dispatch ⟨"/adc.json", true, "sa"⟩
      (fun _ => some ⟨some "service_account"⟩) ⟨some "service_account"⟩
      (by decide) rfl rfl).2.1 rfl,
   (google_default_credentials_dispatch ⟨"/adc.json", true, "x"⟩
      (fun _ => some ⟨none⟩) ⟨none⟩
      (by decide) rfl rfl).2.2.1 (by decide) (by decide)⟩

/-- C3: while the cached expiration is strictly in the future,
`AuthorizationHeader` returns the cached header at once: `Refresh` returns
true with zero `MakeRequest` invocations and the member state untouched, and
the wait returns the cached header. -/
theorem authorization_header_fresh_token_no_request (mk : Nat → HttpResponse)
    (parseJson : String → Option TokenJson) (now : Int)
    (c : CredentialsState) (wakeups : Nat)
    (hfresh : now < c.token.expirationTime) :
    refreshC mk parseJson now c =
        ⟨.ret true, c.token, c.retryPolicy, c.backoffPolicy, 0⟩ ∧
      authorizationHeader mk parseJson now c wakeups =
        .returned c.token.authorizationHeader c := by
  have h1 : refreshC mk parseJson now c =
      ⟨.ret true, c.token, c.retryPolicy, c.backoffPolicy, 0⟩ := by
    rw [refreshC, refresh, if_pos hfresh]
  refine ⟨h1, ?_⟩
  rw [authorizationHeader.eq_def, h1]
  rfl

/-- C2: `Refresh` mutates the shared token state only after the whole 200
response body has been parsed.  If any field fails to parse, the escaping
exception leaves the cached header and expiration exactly as they were; and
in every outcome the token state is either completely unchanged or the header
and expiration of one fully parsed response, never a mixture. -/
theorem refresh_publishes_token_atomically (mk : Nat → HttpResponse)
    (parseJson : String → Option TokenJson) (now : Int) (st : TokenState)
    (retry : LimitedErrorCountRetryPolicy)
    (backoff : ExponentialBackoffPolicy) :
    ((refresh mk parseJson now st retry backoff).result = .parseExn →
      (refresh mk parseJson now st retry backoff).token = st) ∧
    ((refresh mk parseJson now st retry backoff).token = st ∨
      ∃ tokenType tokenValue expiresIn,
        (refresh mk parseJson now st retry backoff).token =
          ⟨"Authorization: " ++ tokenType ++ " " ++ tokenValue,
           now + expiresIn - googleOAuthTokenExpirationSlack⟩) := by
  rw [refresh]
  split
  · exact ⟨fun _ => rfl, Or.inl rfl⟩
  · exact refreshLoop_token_frame mk parseJson now st _ retry backoff 0 rfl

/-- C2 witness: a 200 response whose body fails to parse leaves a concrete
cached token pair untouched. -/
theorem refresh_publishes_token_atomically_witness :
    (refresh (fun _ => ⟨200, "not json"⟩) (fun _ => none) 50
        ⟨"Authorization: Bearer old", 0⟩ ⟨3, 0⟩ defaultBackoffPolicy).result =
      .parseExn ∧
    (refresh (fun _ => ⟨200, "not json"⟩) (fun _ => none) 50
        ⟨"Authorization: Bearer old", 0⟩ ⟨3, 0⟩ defaultBackoffPolicy).token =
      ⟨"Authorization: Bearer old", 0⟩ := by
  have hres : (refresh (fun _ => ⟨200, "not json"⟩) (fun _ => none) 50
      ⟨"Authorization: Bearer old", 0⟩ ⟨3, 0⟩ defaultBackoffPolicy).result =
      .parseExn := by
    rw [refresh, refreshLoop.eq_def]
    simp [LimitedErrorCountRetryPolicy.isExhausted]
  exact ⟨hres,
    (refresh_publishes_token_atomically (fun _ => ⟨200, "not json"⟩)
      (fun _ => none) 50 ⟨"Authorization: Bearer old", 0⟩ ⟨3, 0⟩
      defaultBackoffPolicy).1 hres⟩

/-- C4: with a count-bounded retry policy of limit N and every transport
attempt failing with a transient status, the `Refresh` loop performs exactly
N `MakeRequest` invocations and then reports failure; no further attempt is
made. -/
theorem refresh_count_policy_exact_attempts (mk : Nat → HttpResponse)
    (parseJson : String → Option TokenJson) (now : Int) (st : TokenState)
    (N : Nat) (backoff : ExponentialBackoffPolicy)
    (hstale : ¬ now < st.expirationTime)
    (hfail : ∀ j, (mk j).statusCode ≠ 200 ∧
      Status.isRetryable ⟨(mk j).statusCode⟩ = true) :
    (refresh mk parseJson now st ⟨N, 0⟩ backoff).result = .ret false ∧
    (refresh mk parseJson now st ⟨N, 0⟩ backoff).attempts = N := by
  rw [refresh, if_neg hstale]
  obtain ⟨h1, -, -, h4⟩ := refreshLoop_all_transient mk parseJson now st hfail
    N ⟨N, 0⟩ backoff 0 (Nat.zero_le N) rfl
  exact ⟨h1, h4.trans (Nat.zero_add N)⟩

/-- C4 witness: with limit 3 and every response 503, exactly 3 attempts are
made and the refresh reports failure. -/
theorem refresh_count_policy_exact_attempts_witness :
    (refresh (fun _ => ⟨503, ""⟩) (fun _ => none) 0
        ⟨"", 0⟩ ⟨3, 0⟩ defaultBackoffPolicy).result = .ret false ∧
    (refresh (fun _ => ⟨503, ""⟩) (fun _ => none) 0
        ⟨"", 0⟩ ⟨3, 0⟩ defaultBackoffPolicy).attempts = 3 :=
  refresh_count_policy_exact_attempts (fun _ => ⟨503, ""⟩) (fun _ => none) 0
    ⟨"", 0⟩ 3 defaultBackoffPolicy (by decide)
    (by
      intro j
      exact ⟨show (503 : Nat) ≠ 200 by decide,
        show Status.isRetryable ⟨503⟩ = true by decide⟩)

/-- C3 witness: a concrete credentials object whose token expires in the
future returns its cached header with zero transport attempts. -/
theorem authorization_header_fresh_token_no_request_witness :
    refreshC (fun _ => ⟨503, ""⟩) (fun _ => none) 0
        ⟨⟨"Authorization: Bearer cached", 100⟩, ⟨3, 0⟩, defaultBackoffPolicy⟩ =
      ⟨.ret true, ⟨"Authorization: Bearer cached", 100⟩, ⟨3, 0⟩,
        defaultBackoffPolicy, 0⟩ ∧
    authorizationHeader (fun _ => ⟨503, ""⟩) (fun _ => none) 0
        ⟨⟨"Authorization: Bearer cached", 100⟩, ⟨3, 0⟩, defaultBackoffPolicy⟩ 0 =
      .returned "Authorization: Bearer cached"
        ⟨⟨"Authorization: Bearer cached", 100⟩, ⟨3, 0⟩, defaultBackoffPolicy⟩ :=
  authorization_header_fresh_token_no_request (fun _ => ⟨503, ""⟩)
    (fun _ => none) 0
    ⟨⟨"Authorization: Bearer cached", 100⟩, ⟨3, 0⟩, defaultBackoffPolicy⟩ 0
    (by decide)

/-- C5 counterexample: two successive `AuthorizationHeader` refreshes on one
`AuthorizedUserCredentials` object do share accumulated policy state.  On
`staleCreds` (count limit 1, every response 503) the first refresh makes one
transport attempt and leaves the member policy mutated, while the second
logical call starts from that mutated state — the token is unchanged, yet it
makes zero attempts instead of the one attempt a freshly cloned policy
produces. -/
theorem credentials_shared_policy_counterexample :
    (refreshC allServerError noTokenParse 1000 staleCreds).credState ≠
        staleCreds ∧
    (refreshC allServerError noTokenParse 1000 staleCreds).token =
        staleCreds.token ∧
    (refreshC allServerError noTokenParse 1000 staleCreds).attempts = 1 ∧
    (refreshC allServerError noTokenParse 1000
        (refreshC allServerError noTokenParse 1000 staleCreds).credState).attempts
      = 0 := by
  have hfirst : refreshC allServerError noTokenParse 1000 staleCreds =
      ⟨.ret false, ⟨"", 0⟩, ⟨1, 1⟩, defaultBackoffPolicy, 1⟩ := by
    rw [refreshC, refresh, if_neg (by decide), refreshLoop.eq_def]
    simp [LimitedErrorCountRetryPolicy.isExhausted,
      LimitedErrorCountRetryPolicy.onFailure, Status.isRetryable,
      allServerError, staleCreds]
    rfl
  have hsecond : refreshC allServerError noTokenParse 1000 exhaustedCreds =
      ⟨.ret false, ⟨"", 0⟩, ⟨1, 1⟩, defaultBackoffPolicy, 0⟩ :=
    refresh_exhausted_no_attempt allServerError noTokenParse 1000
      ⟨"", 0⟩ ⟨1, 1⟩ defaultBackoffPolicy (by decide) (by decide)
  refine ⟨?_, ?_, ?_, ?_⟩
  · rw [hfirst]
    decide
  · rw [hfirst]
    rfl
  · rw [hfirst]
  · rw [hfirst]
    show (refreshC allServerError noTokenParse 1000 exhaustedCreds).attempts = 0
    rw [hsecond]

/-- C5 (amended): fresh policy clones per logical call hold only on the
`TableAdmin` async path, where `AsyncGetTable` hands the retry operation
copies of the stored policies and leaves the stored members unchanged, so
successive calls receive equal fresh policies.  `AuthorizedUserCredentials`
instead clones its policies once, at construction or `ApplyPolicies`, and
successive `AuthorizationHeader` calls share and accumulate the same mutable
policy state: a refresh that exhausts the count budget leaves the member
policy exhausted, and a later call on the still-stale token makes zero
transport attempts. -/
theorem policy_clone_per_call_amended (a : TableAdminState)
    (mk : Nat → HttpResponse) (parseJson : String → Option TokenJson)
    (now : Int) (st : TokenState) (backoff : ExponentialBackoffPolicy)
    (N : Nat) (hstale : ¬ now < st.expirationTime)
    (hfail : ∀ j, (mk j).statusCode ≠ 200 ∧
      Status.isRetryable ⟨(mk j).statusCode⟩ = true) :
    (asyncGetTable a).2 = a ∧
    (asyncGetTable (asyncGetTable a).2).1 = (asyncGetTable a).1 ∧
    (refresh mk parseJson now st ⟨N, 0⟩ backoff).token = st ∧
    (refresh mk parseJson now st ⟨N, 0⟩ backoff).retryPolicy = ⟨N, N⟩ ∧
    ∀ backoff' : ExponentialBackoffPolicy,
      refresh mk parseJson now st ⟨N, N⟩ backoff' =
        ⟨.ret false, st, ⟨N, N⟩, backoff', 0⟩ := by
  obtain ⟨-, h2, h3, -⟩ := refreshLoop_all_transient mk parseJson now st hfail
    N ⟨N, 0⟩ backoff 0 (Nat.zero_le N) rfl
  refine ⟨rfl, rfl, ?_, ?_, ?_⟩
  · rw [refresh, if_neg hstale]
    exact h2
  · rw [refresh, if_neg hstale]
    exact h3
  · intro backoff'
    exact refresh_exhausted_no_attempt mk parseJson now st ⟨N, N⟩ backoff'
      hstale (by simp [LimitedErrorCountRetryPolicy.isExhausted])

/-- C5 amended witness: the concrete two-call run behind the counterexample,
plus a `TableAdmin` object whose members survive an `AsyncGetTable` call. -/
theorem policy_clone_per_call_amended_witness :
    (asyncGetTable ⟨⟨900000⟩, ⟨10⟩, ⟨300000⟩⟩).2 =
        (⟨⟨900000⟩, ⟨10⟩, ⟨300000⟩⟩ : TableAdminState) ∧
    (refresh allServerError noTokenParse 1000 ⟨"", 0⟩ ⟨1, 0⟩
        defaultBackoffPolicy).retryPolicy = ⟨1, 1⟩ ∧
    refresh allServerError noTokenParse 1000 ⟨"", 0⟩ ⟨1, 1⟩
        defaultBackoffPolicy =
      ⟨.ret false, ⟨"", 0⟩, ⟨1, 1⟩, defaultBackoffPolicy, 0⟩ := by
  obtain ⟨h1, -, -, h4, h5⟩ := policy_clone_per_call_amended
    ⟨⟨900000⟩, ⟨10⟩, ⟨300000⟩⟩ allServerError noTokenParse 1000 ⟨"", 0⟩
    defaultBackoffPolicy 1 (by decide)
    (by
      intro j
      exact ⟨show (503 : Nat) ≠ 200 by decide,
        show Status.isRetryable ⟨503⟩ = true by decide⟩)
  exact ⟨h1, h4, h5 defaultBackoffPolicy⟩

/-- C1 (code bug): when the cached token is stale and every refresh attempt
fails with a non-200 response until the retry budget is exhausted,
`AuthorizationHeader` does not fail and does not report an error: the wait
predicate `Refresh()` stays false, nothing in the class ever notifies `cv_`,
and for any number of spurious wakeups the caller remains blocked on the
condition variable. -/
theorem authorization_header_exhaustion_blocks_forever :
    ∀ wakeups,
      authorizationHeader allServerError noTokenParse 1000 staleCreds wakeups =
        .blocked exhaustedCreds := by
  have hfirst : refreshC allServerError noTokenParse 1000 staleCreds =
      ⟨.ret false, ⟨"", 0⟩, ⟨1, 1⟩, defaultBackoffPolicy, 1⟩ := by
    rw [refreshC, refresh, if_neg (by decide), refreshLoop.eq_def]
    simp [LimitedErrorCountRetryPolicy.isExhausted,
      LimitedErrorCountRetryPolicy.onFailure, Status.isRetryable,
      allServerError, staleCreds]
    rfl
  have hfix : refreshC allServerError noTokenParse 1000 exhaustedCreds =
      ⟨.ret false, ⟨"", 0⟩, ⟨1, 1⟩, defaultBackoffPolicy, 0⟩ :=
    refresh_exhausted_no_attempt allServerError noTokenParse 1000
      ⟨"", 0⟩ ⟨1, 1⟩ defaultBackoffPolicy (by decide) (by decide)
  have hblocked : ∀ w,
      authorizationHeader allServerError noTokenParse 1000 exhaustedCreds w =
        .blocked exhaustedCreds := by
    intro w
    induction w with
    | zero =>
      rw [authorizationHeader.eq_def, hfix]
      rfl
    | succ w ih =>
      rw [authorizationHeader.eq_def, hfix]
      exact ih
  intro w
  cases w with
  | zero =>
    rw [authorizationHeader.eq_def, hfirst]
    rfl
  | succ w =>
    rw [authorizationHeader.eq_def, hfirst]
    exact hblocked w

end GoogleCloudCpp
